import Mathlib

/-!
Verification development for the `budi` audio worker services.

The Rust DSP code (services/worker-dsp, services/worker-codec) is shallowly
embedded here.  Samples are modelled as exact rationals (`ℚ`): every f32/f64
arithmetic operation of the source is translated to the corresponding exact
rational operation.  Calls into transcendental library functions
(`powf`, `exp`, `tanh`, `log10`, `sin`, `cos`, `sqrt`) are abstracted by a
`FloatOps` record of rational-valued interpretations, so theorems quantify
over every possible behaviour of those library calls.  Calls into the external
measurement crates (`ebur128` loudness, `rubato` true-peak resampling) are
abstracted by a `Meters` record.  dB quantities produced by `log10` at the
very end of a computation are expressed over `ℝ` with `Real.logb 10`.
-/

namespace Budi

/-- Rust `types.rs` `AudioBuffer`: planar channel vectors plus sample rate and a
channel count field. -/
structure AudioBuffer where
  samples : List (List ℚ)
  sample_rate : ℕ
  channels : ℕ
deriving DecidableEq, Repr

/-- Rust `AudioBuffer::frame_count`: 0 when there are no channels, else the length
of channel 0. -/
def AudioBuffer.frame_count (b : AudioBuffer) : ℕ :=
  (b.samples.headD []).length

/-- Sample of channel `ch` at frame `i` (out-of-range reads, which would
panic in Rust, are given the junk value 0). -/
def sampleAt (b : AudioBuffer) (ch i : ℕ) : ℚ :=
  (b.samples.getD ch []).getD i 0

/-- The `types.rs` buffer invariant: `len(samples[c]) == F` for all `c`. -/
def uniformLength (b : AudioBuffer) : Prop :=
  ∀ ch ∈ b.samples, ch.length = b.frame_count

instance (b : AudioBuffer) : Decidable (uniformLength b) :=
  decidable_of_iff (∀ ch ∈ b.samples, ch.length = b.frame_count) Iff.rfl

/-- Rust `types.rs` `FixChange`. Numeric `format!` interpolations of the Rust
descriptions are kept only where they are integers; float formatting
(`{:.1}` etc.) is elided from the description strings. -/
structure FixChange where
  module : String
  description : String
deriving DecidableEq, Repr

/-- Rust `types.rs` `MasterProfile`. -/
inductive MasterProfile where
  | Balanced | Warm | Punchy | Custom
deriving DecidableEq, Repr

/-- Rust `types.rs` `LoudnessTarget`. -/
inductive LoudnessTarget where
  | Low | Medium | High
deriving DecidableEq, Repr

/-- Rust `LoudnessTarget::lufs_value`. -/
def LoudnessTarget.lufs_value : LoudnessTarget → ℚ
  | .Low => -14
  | .Medium => -11
  | .High => -8

/-- Rust `types.rs` `QC_TRUE_PEAK_MAX` (-2.0 dBTP; exact in f64). -/
def QC_TRUE_PEAK_MAX : ℚ := -2

/-- Interpretations for the transcendental float library calls made by the
source.  Theorems below hold for every interpretation, hence in particular
for the rounded f32/f64 functions the Rust code actually calls. -/
structure FloatOps where
  powf : ℚ → ℚ → ℚ
  fexp : ℚ → ℚ
  flog10 : ℚ → ℚ
  ftanh : ℚ → ℚ
  fsin : ℚ → ℚ
  fcos : ℚ → ℚ
  fsqrt : ℚ → ℚ

/-- A trivial interpretation, used to instantiate witnesses. -/
def zeroOps : FloatOps :=
  { powf := fun _ _ => 0, fexp := fun _ => 0, flog10 := fun _ => 0,
    ftanh := fun _ => 0, fsin := fun _ => 0, fcos := fun _ => 0,
    fsqrt := fun _ => 0 }

/-- The exact value of `std::f32::consts::PI` (bit pattern 0x40490FDB). -/
def pi_f32 : ℚ := 13176795 / 4194304

/-! ## fix.rs: clip repair -/

/-- Rust `fix.rs` clip threshold 0.99 (the literal as an exact rational). -/
def clipThreshold : ℚ := 99 / 100

/-- Rust `fix.rs` `apply_clip_repair` smooth-step polynomial `t*t*(3 - 2*t)`. -/
def smoothStep (t : ℚ) : ℚ := t * t * (3 - 2 * t)

/-- Number of iterations of the inner `while` of `apply_clip_repair` when it
starts at index `i`: it keeps advancing while `i < len - 1` and
`|channel[i]| >= 0.99`.  (`len` is the Rust `let len = channel.len()`,
fixed before the scan.) -/
def runLen (ch : List ℚ) (len i : ℕ) : ℕ :=
  if i < len - 1 ∧ clipThreshold ≤ |ch.getD i 0| then runLen ch len (i + 1) + 1 else 0
termination_by len - 1 - i
decreasing_by omega

/-- The index at which the inner `while` of `apply_clip_repair` stops
(the Rust local `end`). -/
def runEnd (ch : List ℚ) (len i : ℕ) : ℕ := i + runLen ch len i

/-- The repair write loop of `apply_clip_repair`: for `j in 0..rlen`, set
`channel[start + j] := sv + (ev - sv) * smoothstep ((j+1)/(rlen+1))`. -/
def writeRun (sv ev : ℚ) (start rlen : ℕ) (ch : List ℚ) : List ℚ :=
  (List.range rlen).foldl
    (fun c j =>
      c.set (start + j) (sv + (ev - sv) * smoothStep (((j : ℚ) + 1) / ((rlen : ℚ) + 1))))
    ch

/-- The outer scan loop of `apply_clip_repair` over one channel, carrying the
fixed channel length, the current index and the running repaired-sample
count. -/
def repairLoop (len : ℕ) (ch : List ℚ) (i cnt : ℕ) : List ℚ × ℕ :=
  if i < len - 1 then
    if clipThreshold ≤ |ch.getD i 0| then
      let e := runEnd ch len i
      if 0 < i ∧ e < len then
        let sv := ch.getD (i - 1) 0
        let ev := ch.getD e 0
        let rlen := e - i + 1
        repairLoop len (writeRun sv ev i rlen ch) (e + 1) (cnt + rlen)
      else
        repairLoop len ch (e + 1) cnt
    else repairLoop len ch (i + 1) cnt
  else (ch, cnt)
termination_by len - i
decreasing_by
  · simp only [runEnd]
    omega
  · simp only [runEnd]
    omega
  · omega

/-- Rust `fix.rs` `apply_clip_repair` on one channel: channels shorter than 3 are
skipped, otherwise the scan starts at index 1 with count 0. -/
def repairChannel (ch : List ℚ) : List ℚ × ℕ :=
  if ch.length < 3 then (ch, 0) else repairLoop ch.length ch 1 0

/-- Rust `fix.rs` `apply_clip_repair`: repair every channel, sum the repaired
counts, and report a change exactly when the count is positive. -/
def apply_clip_repair (b : AudioBuffer) : AudioBuffer × Option FixChange :=
  let pairs := b.samples.map repairChannel
  let total : ℕ := pairs.foldl (fun a p => a + p.2) 0
  ({ b with samples := pairs.map Prod.fst },
   if 0 < total then
     some { module := "clip_repair",
            description :=
              "Repaired " ++ toString total ++ " clipped samples using interpolation" }
   else none)

/-! ## fix.rs: the other five modules -/

/-- Maximum of `|x|` over all channels and samples (the peak scan shared by
`apply_normalize` in fix.rs and `calculate_sample_peak` in analysis.rs). -/
def maxAbsSample (b : AudioBuffer) : ℚ :=
  b.samples.foldl (fun m ch => ch.foldl (fun m2 s => max m2 |s|) m) 0

/-- Rust `fix.rs` `apply_normalize`: target −1 dBFS; skip when the peak is below
1e-4 or the linear gain is within 1% of unity; otherwise scale every
sample. -/
def apply_normalize (F : FloatOps) (b : AudioBuffer) : AudioBuffer × Option FixChange :=
  let target_linear := F.powf 10 (-1 / 20)
  let maxS := maxAbsSample b
  if maxS < 1 / 10000 then (b, none)
  else
    let gain := target_linear / maxS
    if |gain - 1| < 1 / 100 then (b, none)
    else
      ({ b with samples := b.samples.map (List.map (fun s => s * gain)) },
       some { module := "normalize",
              description := "Applied gain to normalize to -1dB peak" })

/-- One channel of `fix.rs` `apply_de_ess`: single-pole high-pass isolation of
sibilance, 1 ms / 50 ms envelope follower, attenuation above threshold 0.3
with ratio 0.5 floored at 0.3, remixed at the filter alpha.  The state is
(previous output sample, previous high-pass value, envelope); the reduction
count is threaded for the change report.  Note the Rust loop reads
`channel[i-1]` after it may have been overwritten, hence `prevIn` is the
previous output value. -/
def deEssChan (alpha ac rc : ℚ) : ℚ → ℚ → ℚ → ℕ → List ℚ → List ℚ × ℕ
  | _, _, _, cnt, [] => ([], cnt)
  | prevIn, prevHp, env, cnt, x :: rest =>
    let hp := alpha * (prevHp + x - prevIn)
    let hpAbs := |hp|
    let env2 := if env < hpAbs then env + (hpAbs - env) * ac else env + (hpAbs - env) * rc
    if 3 / 10 < env2 then
      let gr := 1 - (1 - 1 / 2) * (env2 - 3 / 10) / env2
      let g := max gr (3 / 10)
      let y := x * (1 - alpha) + hp * g * alpha
      let r := deEssChan alpha ac rc y hp env2 (cnt + 1) rest
      (y :: r.1, r.2)
    else
      let r := deEssChan alpha ac rc x hp env2 cnt rest
      (x :: r.1, r.2)

/-- Rust `fix.rs` `apply_de_ess`: channels shorter than 2 are skipped; a change is
reported exactly when some sample was attenuated. -/
def apply_de_ess (b : AudioBuffer) : AudioBuffer × Option FixChange :=
  let sr : ℚ := b.sample_rate
  let rc := 1 / (2 * pi_f32 * 4000)
  let dt := 1 / sr
  let alpha := dt / (rc + dt)
  let attack := 1 / 1000 * sr
  let release := 50 / 1000 * sr
  let pairs := b.samples.map (fun ch =>
    if ch.length < 2 then (ch, 0)
    else deEssChan alpha (1 / attack) (1 / release) 0 0 0 0 ch)
  let total : ℕ := pairs.foldl (fun a p => a + p.2) 0
  ({ b with samples := pairs.map Prod.fst },
   if 0 < total then
     some { module := "de_ess", description := "Applied de-essing" }
   else none)

/-- One channel of `fix.rs` `apply_noise_reduction`: envelope follower with
5 ms / 50 ms attack/release expressed in samples, gate opening above the
threshold with a hold of `release_samples`, and gentle attenuation
`0.1 + 0.9·min(env/threshold, 1)` while the gate is closed.  State is
(envelope, gate_open, hold counter); the gated-sample count is threaded. -/
def gateChan (thr : ℚ) (atkS relS : ℕ) : ℚ → Bool → ℕ → ℕ → List ℚ → List ℚ × ℕ
  | _, _, _, g, [] => ([], g)
  | env, gate, hold, g, x :: rest =>
    let ax := |x|
    let env2 := if env < ax then env + (ax - env) / (atkS : ℚ) else env + (ax - env) / (relS : ℚ)
    let st : Bool × ℕ :=
      if thr < env2 then (true, relS)
      else if 0 < hold then (gate, hold - 1)
      else (false, hold)
    let y := if st.1 then x else x * (1 / 10 + 9 / 10 * min (env2 / thr) 1)
    let g2 := if st.1 then g else g + 1
    let r := gateChan thr atkS relS env2 st.1 st.2 g2 rest
    (y :: r.1, r.2)

/-- Rust `fix.rs` `apply_noise_reduction`: gate threshold `2 · 10^(−60/20)` (the
`powf` call goes through `FloatOps`); attack/release sample counts are the
truncations of `0.005·rate` and `0.050·rate`. -/
def apply_noise_reduction (F : FloatOps) (b : AudioBuffer) : AudioBuffer × Option FixChange :=
  let noise_floor := F.powf 10 (-60 / 20)
  let gate_threshold := noise_floor * 2
  let attack_samples := 5 * b.sample_rate / 1000
  let release_samples := 50 * b.sample_rate / 1000
  let pairs := b.samples.map (gateChan gate_threshold attack_samples release_samples 0 false 0 0)
  let total : ℕ := pairs.foldl (fun a p => a + p.2) 0
  ({ b with samples := pairs.map Prod.fst },
   if 0 < total then
     some { module := "noise_reduction", description := "Applied noise gating" }
   else none)

/-- Rust `fix.rs` `apply_dc_offset_removal`: per channel, subtract the mean when
its absolute value exceeds 1e-4; report a change when any channel was
corrected. -/
def apply_dc_offset_removal (b : AudioBuffer) : AudioBuffer × Option FixChange :=
  let step : List ℚ → List ℚ × Option ℚ := fun ch =>
    if ch.isEmpty then (ch, none)
    else
      let offset := ch.foldl (· + ·) 0 / (ch.length : ℚ)
      if 1 / 10000 < |offset| then (ch.map (fun s => s - offset), some offset)
      else (ch, none)
  let pairs := b.samples.map step
  let offsets := pairs.filterMap Prod.snd
  ({ b with samples := pairs.map Prod.fst },
   if offsets.isEmpty then none
   else some { module := "dc_offset", description := "Removed DC offset" })

/-- Per-frame maximum of `|x|` across channels (the frame test of
`apply_silence_trim`; out-of-range channel reads yield 0, mirroring
`ch.get(i).unwrap_or(&0.0)`). -/
def frameMax (b : AudioBuffer) (i : ℕ) : ℚ :=
  b.samples.foldl (fun m ch => max m |ch.getD i 0|) 0

/-- The first scan of `apply_silence_trim`: index of the first audible frame
minus the 100 ms margin (saturating), 0 when everything is silent. -/
def trimStart (b : AudioBuffer) : ℕ :=
  match (List.range b.frame_count).find? (fun i => decide (1 / 1000 < frameMax b i)) with
  | some i => i - 100 * b.sample_rate / 1000
  | none => 0

/-- The second scan of `apply_silence_trim`: index one past the kept range,
`min(last audible + margin, frame_count)`, `frame_count` when everything is
silent. -/
def trimEnd (b : AudioBuffer) : ℕ :=
  match (List.range b.frame_count).reverse.find? (fun i => decide (1 / 1000 < frameMax b i)) with
  | some i => min (i + 100 * b.sample_rate / 1000) b.frame_count
  | none => b.frame_count

/-- Rust `fix.rs` `apply_silence_trim`: threshold 1e-3; keep
`(100 ms · rate/1000)` frames of silence before the first and after the last
audible frame; trim only when something would actually be removed. -/
def apply_silence_trim (b : AudioBuffer) : AudioBuffer × Option FixChange :=
  if b.frame_count = 0 then (b, none)
  else if 0 < trimStart b ∨ 0 < b.frame_count - trimEnd b then
    ({ b with samples :=
        b.samples.map (fun ch => (ch.drop (trimStart b)).take (trimEnd b - trimStart b)) },
     some { module := "silence_trim", description := "Trimmed silence from start and end" })
  else (b, none)

/-! ## fix.rs: apply_fixes dispatch -/

/-- The recognized module names of the `match` in `apply_fixes`. -/
def validFixModules : List String :=
  ["normalize", "clip_repair", "de_ess", "noise_reduction", "dc_offset", "silence_trim"]

/-- One arm of the `match module.as_str()` dispatch of `apply_fixes`; an
unknown name logs a warning and leaves the buffer untouched with no change
(the `continue`). -/
def applyModule (F : FloatOps) (b : AudioBuffer) (m : String) : AudioBuffer × Option FixChange :=
  if m = "normalize" then apply_normalize F b
  else if m = "clip_repair" then apply_clip_repair b
  else if m = "de_ess" then apply_de_ess b
  else if m = "noise_reduction" then apply_noise_reduction F b
  else if m = "dc_offset" then apply_dc_offset_removal b
  else if m = "silence_trim" then apply_silence_trim b
  else (b, none)

/-- Rust `fix.rs` `apply_fixes`: run the requested modules in order on the shared
buffer, collecting the emitted changes. -/
def apply_fixes (F : FloatOps) (b : AudioBuffer) : List String → AudioBuffer × List FixChange
  | [] => (b, [])
  | m :: ms =>
    let step := applyModule F b m
    let rest := apply_fixes F step.1 ms
    (rest.1, (step.2.toList) ++ rest.2)

/-! ## audio.rs: linear WAV encoding -/

/-- Rust `f32::clamp(lo, hi)`. -/
def clampQ (x lo hi : ℚ) : ℚ := max lo (min x hi)

/-- Rust float-to-integer `as` cast: truncation toward zero (in the encoder
the clamped products always fit the target width, so no saturation arises). -/
def ratTruncToInt (q : ℚ) : ℤ := q.num.tdiv q.den

/-- One encoded PCM sample of `write_wav_file`:
`(sample.clamp(-1.0, 1.0) * factor) as iN`. -/
def encodeSample (factor : ℚ) (x : ℚ) : ℤ := ratTruncToInt (clampQ x (-1) 1 * factor)

/-- The nested frame/channel write loop of `write_wav_file`, modelling the
sequence of samples pushed into the WAV writer. -/
def writeFrames (b : AudioBuffer) (factor : ℚ) : List ℤ :=
  (List.range b.frame_count).foldl
    (fun acc i =>
      (List.range b.channels).foldl
        (fun acc2 ch => acc2 ++ [encodeSample factor (sampleAt b ch i)]) acc)
    []

/-- Rust `audio.rs` `write_wav_file`: dispatch on bit depth with factors 32767 /
8388607 / 2147483647; any other depth fails with
`Unsupported bit depth: {}`. The result models the stream of integer samples
written to the file. -/
def write_wav_file (b : AudioBuffer) (bit_depth : ℕ) : Except String (List ℤ) :=
  match bit_depth with
  | 16 => .ok (writeFrames b 32767)
  | 24 => .ok (writeFrames b 8388607)
  | 32 => .ok (writeFrames b 2147483647)
  | d => .error ("Unsupported bit depth: " ++ toString d)

/-- The per-depth scaling factor of the three supported arms of `write_wav_file`
(0 for unsupported depths, which never reach an encoder arm). -/
def wavFactor : ℕ → ℚ
  | 16 => 32767
  | 24 => 8388607
  | 32 => 2147483647
  | _ => 0

/-- Modelled from the spec ("16-bit writes samples as
`round(clamp(x,−1,1) · 32767)`"): rounding half away from zero, as Rust
`f32::round` would.  The code under test truncates (`ratTruncToInt`);
this definition exists only to compare the wording of the spec with the code. -/
def roundHalfAway (q : ℚ) : ℤ :=
  if 0 ≤ q then ratTruncToInt (q + 1 / 2) else ratTruncToInt (q - 1 / 2)

instance : DecidableEq (Except String (List ℤ)) := fun a b =>
  match a, b with
  | .ok x, .ok y => decidable_of_iff (x = y) (by simp)
  | .error x, .error y => decidable_of_iff (x = y) (by simp)
  | .ok _, .error _ => isFalse (by simp)
  | .error _, .ok _ => isFalse (by simp)

/-! ## analysis.rs: sample peak -/

/-- Rust `analysis.rs` `calculate_sample_peak`: `20·log10(max |x|)` over all
channels and samples, −96 when the maximum is zero. -/
noncomputable def calculate_sample_peak (b : AudioBuffer) : ℝ :=
  if 0 < maxAbsSample b then 20 * Real.logb 10 ((maxAbsSample b : ℚ) : ℝ) else -96

/-! ## worker-codec main.rs: artifact score -/

/-- The overlapping frame count of `calculate_artifact_score`. -/
def minFrames (o d : AudioBuffer) : ℕ := min o.frame_count d.frame_count

/-- Sum `Σ (orig − dec)²` over the shared channels and the overlapping frame
prefix. -/
def totalError (o d : AudioBuffer) : ℚ :=
  ∑ ch in Finset.range (min o.channels d.channels),
    ∑ i in Finset.range (minFrames o d), (sampleAt o ch i - sampleAt d ch i) ^ 2

/-- Sum `Σ orig²` over the shared channels and the overlapping frame prefix. -/
def totalEnergy (o d : AudioBuffer) : ℚ :=
  ∑ ch in Finset.range (min o.channels d.channels),
    ∑ i in Finset.range (minFrames o d), sampleAt o ch i ^ 2

/-- The SNR of `calculate_artifact_score`: `10·log10(energy/error)` when both
sums are positive, else the perfect-match sentinel 100. -/
noncomputable def snrOf (o d : AudioBuffer) : ℝ :=
  if 0 < totalError o d ∧ 0 < totalEnergy o d then
    10 * Real.logb 10 ((totalEnergy o d : ℝ) / (totalError o d : ℝ))
  else 100

/-- Rust `worker-codec/src/main.rs` `calculate_artifact_score`: 0 when there is no
overlap, else `((60 − snr)/60 · 100).clamp(0, 100)`. -/
noncomputable def calculate_artifact_score (o d : AudioBuffer) : ℝ :=
  if minFrames o d = 0 then 0
  else max 0 (min ((60 - snrOf o d) / 60 * 100) 100)

/-! ## mastering.rs -/

/-- The state-passing loop of `mastering.rs` `apply_biquad` with stack-local
state `(x1, x2, y1, y2)` reset before each channel pass. -/
def biquadGo (b0 b1 b2 a1 a2 : ℚ) : ℚ → ℚ → ℚ → ℚ → List ℚ → List ℚ
  | _, _, _, _, [] => []
  | x1, x2, y1, y2, x0 :: rest =>
    let y0 := b0 * x0 + b1 * x1 + b2 * x2 - a1 * y1 - a2 * y2
    y0 :: biquadGo b0 b1 b2 a1 a2 x0 x1 y0 y1 rest

/-- Rust `mastering.rs` `apply_biquad`. -/
def apply_biquad (b0 b1 b2 a1 a2 : ℚ) (samples : List ℚ) : List ℚ :=
  biquadGo b0 b1 b2 a1 a2 0 0 0 0 samples

/-- Rust `mastering.rs` `apply_low_shelf` (audio-cookbook low shelf, Q = 1/0.707). -/
def apply_low_shelf (F : FloatOps) (sr freq gain_db : ℚ) (ch : List ℚ) : List ℚ :=
  let a := F.powf 10 (gain_db / 40)
  let w0 := 2 * pi_f32 * freq / sr
  let cos_w0 := F.fcos w0
  let sin_w0 := F.fsin w0
  let alpha := sin_w0 / 2 * F.fsqrt ((a + 1 / a) * (1 / (707 / 1000) - 1) + 2)
  let b0 := a * ((a + 1) - (a - 1) * cos_w0 + 2 * F.fsqrt a * alpha)
  let b1 := 2 * a * ((a - 1) - (a + 1) * cos_w0)
  let b2 := a * ((a + 1) - (a - 1) * cos_w0 - 2 * F.fsqrt a * alpha)
  let a0 := (a + 1) + (a - 1) * cos_w0 + 2 * F.fsqrt a * alpha
  let a1 := -2 * ((a - 1) + (a + 1) * cos_w0)
  let a2 := (a + 1) + (a - 1) * cos_w0 - 2 * F.fsqrt a * alpha
  apply_biquad (b0 / a0) (b1 / a0) (b2 / a0) (a1 / a0) (a2 / a0) ch

/-- Rust `mastering.rs` `apply_high_shelf`. -/
def apply_high_shelf (F : FloatOps) (sr freq gain_db : ℚ) (ch : List ℚ) : List ℚ :=
  let a := F.powf 10 (gain_db / 40)
  let w0 := 2 * pi_f32 * freq / sr
  let cos_w0 := F.fcos w0
  let sin_w0 := F.fsin w0
  let alpha := sin_w0 / 2 * F.fsqrt ((a + 1 / a) * (1 / (707 / 1000) - 1) + 2)
  let b0 := a * ((a + 1) + (a - 1) * cos_w0 + 2 * F.fsqrt a * alpha)
  let b1 := -2 * a * ((a - 1) + (a + 1) * cos_w0)
  let b2 := a * ((a + 1) + (a - 1) * cos_w0 - 2 * F.fsqrt a * alpha)
  let a0 := (a + 1) - (a - 1) * cos_w0 + 2 * F.fsqrt a * alpha
  let a1 := 2 * ((a - 1) - (a + 1) * cos_w0)
  let a2 := (a + 1) - (a - 1) * cos_w0 - 2 * F.fsqrt a * alpha
  apply_biquad (b0 / a0) (b1 / a0) (b2 / a0) (a1 / a0) (a2 / a0) ch

/-- Rust `mastering.rs` `apply_peaking_eq`. -/
def apply_peaking_eq (F : FloatOps) (sr freq gain_db q : ℚ) (ch : List ℚ) : List ℚ :=
  let a := F.powf 10 (gain_db / 40)
  let w0 := 2 * pi_f32 * freq / sr
  let cos_w0 := F.fcos w0
  let sin_w0 := F.fsin w0
  let alpha := sin_w0 / (2 * q)
  let b0 := 1 + alpha * a
  let b1 := -2 * cos_w0
  let b2 := 1 - alpha * a
  let a0 := 1 + alpha / a
  let a1 := -2 * cos_w0
  let a2 := 1 - alpha / a
  apply_biquad (b0 / a0) (b1 / a0) (b2 / a0) (a1 / a0) (a2 / a0) ch

/-- The EQ parameter table of `mastering.rs` `apply_eq`:
(low gain, mid gain, high gain, low freq, high freq). -/
def eqParams : MasterProfile → ℚ × ℚ × ℚ × ℚ × ℚ
  | .Balanced => (0, 0, 1 / 2, 80, 12000)
  | .Warm => (3 / 2, -1 / 2, -1, 100, 8000)
  | .Punchy => (2, 1, 3 / 2, 60, 10000)
  | .Custom => (0, 0, 0, 80, 12000)

/-- Rust `mastering.rs` `apply_eq`: early return when every gain is zero;
otherwise per channel apply the shelves/peak whose |gain| exceeds 0.01. -/
def apply_eq (F : FloatOps) (b : AudioBuffer) (profile : MasterProfile) : AudioBuffer :=
  let sr : ℚ := b.sample_rate
  let p := eqParams profile
  let lg := p.1
  let mg := p.2.1
  let hg := p.2.2.1
  let lf := p.2.2.2.1
  let hf := p.2.2.2.2
  if lg = 0 ∧ mg = 0 ∧ hg = 0 then b
  else
    { b with samples := b.samples.map (fun ch =>
        let c1 := if 1 / 100 < |lg| then apply_low_shelf F sr lf lg ch else ch
        let c2 := if 1 / 100 < |mg| then apply_peaking_eq F sr 2000 mg 1 c1 else c1
        if 1 / 100 < |hg| then apply_high_shelf F sr hf hg c2 else c2) }

/-- Rust `mastering.rs` `apply_lowpass_butterworth` (Q = 0.707). -/
def apply_lowpass_butterworth (F : FloatOps) (sr freq : ℚ) (ch : List ℚ) : List ℚ :=
  let w0 := 2 * pi_f32 * freq / sr
  let cos_w0 := F.fcos w0
  let sin_w0 := F.fsin w0
  let alpha := sin_w0 / (2 * (707 / 1000))
  let b0 := (1 - cos_w0) / 2
  let b1 := 1 - cos_w0
  let b2 := (1 - cos_w0) / 2
  let a0 := 1 + alpha
  let a1 := -2 * cos_w0
  let a2 := 1 - alpha
  apply_biquad (b0 / a0) (b1 / a0) (b2 / a0) (a1 / a0) (a2 / a0) ch

/-- Rust `mastering.rs` `apply_highpass_butterworth`. -/
def apply_highpass_butterworth (F : FloatOps) (sr freq : ℚ) (ch : List ℚ) : List ℚ :=
  let w0 := 2 * pi_f32 * freq / sr
  let cos_w0 := F.fcos w0
  let sin_w0 := F.fsin w0
  let alpha := sin_w0 / (2 * (707 / 1000))
  let b0 := (1 + cos_w0) / 2
  let b1 := -(1 + cos_w0)
  let b2 := (1 + cos_w0) / 2
  let a0 := 1 + alpha
  let a1 := -2 * cos_w0
  let a2 := 1 - alpha
  apply_biquad (b0 / a0) (b1 / a0) (b2 / a0) (a1 / a0) (a2 / a0) ch

/-- Rust `mastering.rs` `apply_lowpass_lr4`: 2nd-order Butterworth applied twice. -/
def apply_lowpass_lr4 (F : FloatOps) (sr freq : ℚ) (ch : List ℚ) : List ℚ :=
  apply_lowpass_butterworth F sr freq (apply_lowpass_butterworth F sr freq ch)

/-- Rust `mastering.rs` `apply_highpass_lr4`. -/
def apply_highpass_lr4 (F : FloatOps) (sr freq : ℚ) (ch : List ℚ) : List ℚ :=
  apply_highpass_butterworth F sr freq (apply_highpass_butterworth F sr freq ch)

/-- The envelope/gain loop of `mastering.rs` `apply_compression`. -/
def compressGo (F : FloatOps) (threshold ratio ac rc : ℚ) : ℚ → List ℚ → List ℚ
  | _, [] => []
  | env, x :: rest =>
    let ia := |x|
    let env2 := if env < ia then ac * env + (1 - ac) * ia else rc * env + (1 - rc) * ia
    let gain :=
      if threshold < env2 then
        let over_db := 20 * F.flog10 (env2 / threshold)
        F.powf 10 (-(over_db * (1 - 1 / ratio)) / 20)
      else 1
    (x * gain) :: compressGo F threshold ratio ac rc env2 rest

/-- Rust `mastering.rs` `apply_compression`: exponential attack/release
coefficients `exp(−1/(t_ms·rate/1000))` and threshold `10^(dB/20)`. -/
def apply_compression (F : FloatOps) (sr threshold_db ratio attack_ms release_ms : ℚ)
    (ch : List ℚ) : List ℚ :=
  let threshold := F.powf 10 (threshold_db / 20)
  let ac := F.fexp (-1 / (attack_ms * sr / 1000))
  let rc := F.fexp (-1 / (release_ms * sr / 1000))
  compressGo F threshold ratio ac rc 0 ch

/-- The per-profile compression table of `apply_multiband_compression`:
(low ratio, mid ratio, high ratio, low thr, mid thr, high thr). -/
def compressionParams : MasterProfile → ℚ × ℚ × ℚ × ℚ × ℚ × ℚ
  | .Balanced => (2, 2, 2, -18, -16, -14)
  | .Warm => (3, 2, 3 / 2, -16, -18, -20)
  | .Punchy => (4, 3, 5 / 2, -14, -14, -12)
  | .Custom => (2, 2, 2, -18, -16, -14)

/-- Rust `mastering.rs` `apply_multiband_compression`: per channel, split with LR4
crossovers at 200 Hz and 2 kHz, compress each band, and sum. -/
def apply_multiband_compression (F : FloatOps) (b : AudioBuffer) (profile : MasterProfile) :
    AudioBuffer :=
  let sr : ℚ := b.sample_rate
  let p := compressionParams profile
  let lr := p.1
  let mr := p.2.1
  let hr := p.2.2.1
  let lt := p.2.2.2.1
  let mt := p.2.2.2.2.1
  let ht := p.2.2.2.2.2
  { b with samples := b.samples.map (fun ch =>
      let low := apply_compression F sr lt lr 20 200 (apply_lowpass_lr4 F sr 200 ch)
      let high := apply_compression F sr ht hr 5 50 (apply_highpass_lr4 F sr 2000 ch)
      let mid := apply_compression F sr mt mr 10 100
        (apply_lowpass_lr4 F sr 2000 (apply_highpass_lr4 F sr 200 ch))
      List.zipWith (fun u v => u + v) (List.zipWith (fun u v => u + v) low mid) high) }

/-- Rust `mastering.rs` `apply_saturation`: `x ← tanh(x·(1+drive))` with drives
0.3 (Warm), 0.5 (Punchy), 0.2 otherwise. -/
def apply_saturation (F : FloatOps) (b : AudioBuffer) (profile : MasterProfile) : AudioBuffer :=
  let drive : ℚ := match profile with
    | .Warm => 3 / 10
    | .Punchy => 1 / 2
    | _ => 1 / 5
  { b with samples := b.samples.map (List.map (fun x => F.ftanh (x * (1 + drive)))) }

/-! ## mastering.rs: look-ahead limiter -/

/-- Rust `(0.005 * sample_rate as f32) as usize`, the 5 ms lookahead of the limiter
(for every realistic rate the f32 product truncates to the same value as
this exact rational computation). -/
def lookaheadSamples (rate : ℕ) : ℕ := 5 * rate / 1000

/-- Rust `usize` subtraction under overflow checks: `none` models the
overflow panic of `len - lookahead_samples` in a debug build. -/
def checkedSub (a b : ℕ) : Option ℕ := if b ≤ a then some (a - b) else none

/-- One iteration of the main limiter loop (`for i in 0..len`): apply
make-up gain at `i`, refresh the lookahead ring at `i % L`, take the ring
peak, compute the target gain reduction against the ceiling, smooth it
(instant attack, one-pole release), and scale the delayed sample `i − L`. -/
def limiterStep (L : ℕ) (mg cl rc : ℚ) (s : List ℚ × List ℚ × ℚ) (i : ℕ) :
    List ℚ × List ℚ × ℚ :=
  let ch := s.1
  let ring := s.2.1
  let gr := s.2.2
  let ch1 := ch.set i (ch.getD i 0 * mg)
  let ring1 := ring.set (i % L) |ch1.getD i 0|
  let peak := ring1.foldl max 0
  let tgr := if cl < peak then cl / peak else 1
  let gr1 := if tgr < gr then tgr else rc * gr + (1 - rc) * tgr
  let ch2 := if L ≤ i then ch1.set (i - L) (ch1.getD (i - L) 0 * gr1) else ch1
  (ch2, ring1, gr1)

/-- The main limiter loop over one channel, starting from a zeroed ring of
`L` entries and gain reduction 1. -/
def limiterMainLoop (L : ℕ) (mg cl rc : ℚ) (ch : List ℚ) : List ℚ × List ℚ × ℚ :=
  (List.range ch.length).foldl (limiterStep L mg cl rc) (ch, List.replicate L 0, 1)

/-- The limiter tail flush, scaling every sample from `len - L` on by the final gain. -/
def tailFlush (gr : ℚ) (s : ℕ) (ch : List ℚ) : List ℚ :=
  (List.range' s (ch.length - s)).foldl (fun c i => c.set i (c.getD i 0 * gr)) ch

/-- One channel of `apply_limiter`.  `none` models a panic: either `i % 0`
inside the main loop (`L = 0` with a non-empty channel) or the unsigned
underflow of `len - L` in the tail flush when the channel is shorter than
the lookahead (the Rust panic happens after the main loop ran; the resulting
non-termination of the job is the same). -/
def limiterChannel (L : ℕ) (mg cl rc : ℚ) (ch : List ℚ) : Option (List ℚ) :=
  if L = 0 ∧ 0 < ch.length then none
  else
    match checkedSub ch.length L with
    | none => none
    | some s =>
      let r := limiterMainLoop L mg cl rc ch
      some (tailFlush r.2.2 s r.1)

/-- Sequential per-channel processing of `for channel in &mut buffer.samples`
in `apply_limiter`, where a panic in any channel aborts the whole call. -/
def mapChannels (f : List ℚ → Option (List ℚ)) : List (List ℚ) → Option (List (List ℚ))
  | [] => some []
  | c :: cs =>
    match f c, mapChannels f cs with
    | some c2, some cs2 => some (c2 :: cs2)
    | _, _ => none

/-- Interpretations for the external measurement crates: `calculate_loudness`
(ebur128 integrated loudness) and `calculate_true_peak` (rubato 4×
oversampling).  Theorems quantify over every interpretation. -/
structure Meters where
  loudness : AudioBuffer → ℚ
  truePeak : AudioBuffer → ℚ

/-- A trivial metering interpretation, used to instantiate witnesses. -/
def zeroMeters : Meters := { loudness := fun _ => 0, truePeak := fun _ => 0 }

/-- Rust `mastering.rs` `apply_limiter`: measure loudness, compute the make-up
scalar `10^((target − current)/20)`, limit every channel against the −2 dBTP
ceiling with 5 ms lookahead and 100 ms release, then re-measure loudness and
true peak. -/
def apply_limiter (F : FloatOps) (M : Meters) (b : AudioBuffer) (target : LoudnessTarget) :
    Option (AudioBuffer × ℚ × ℚ) :=
  let cl := F.powf 10 (QC_TRUE_PEAK_MAX / 20)
  let sr : ℚ := b.sample_rate
  let L := lookaheadSamples b.sample_rate
  let rc := F.fexp (-1 / (100 * sr / 1000))
  let current := M.loudness b
  let mg := F.powf 10 ((target.lufs_value - current) / 20)
  match mapChannels (limiterChannel L mg cl rc) b.samples with
  | none => none
  | some samples2 =>
    let b2 := { b with samples := samples2 }
    some (b2, M.loudness b2, M.truePeak b2)

/-- Rust `mastering.rs` `MasteringResult`. -/
structure MasteringResult where
  final_lufs : ℚ
  final_true_peak : ℚ
  passes_qc : Bool
deriving DecidableEq, Repr

/-- Rust `mastering.rs` `apply_mastering`: EQ → multiband compression → optional
saturation (Warm/Punchy) → limiter; `passes_qc` iff the re-measured true
peak is at most `QC_TRUE_PEAK_MAX`. -/
def apply_mastering (F : FloatOps) (M : Meters) (b : AudioBuffer)
    (profile : MasterProfile) (target : LoudnessTarget) : Option MasteringResult :=
  let b1 := apply_eq F b profile
  let b2 := apply_multiband_compression F b1 profile
  let b3 := if profile = .Warm ∨ profile = .Punchy then apply_saturation F b2 profile else b2
  match apply_limiter F M b3 target with
  | none => none
  | some r =>
    some { final_lufs := r.2.1, final_true_peak := r.2.2,
           passes_qc := decide (r.2.2 ≤ QC_TRUE_PEAK_MAX) }

/-! # Theorems -/

/-! ## C2: the QC flag -/

/-- C2: for every mastering run (over every interpretation of the float
library and of the external loudness / true-peak meters), the returned
`passes_qc` flag is true if and only if the re-measured final true peak is
≤ −2.0 dBTP. -/
theorem c2_passes_qc_iff_true_peak_le (F : FloatOps) (M : Meters) (b : AudioBuffer)
    (profile : MasterProfile) (target : LoudnessTarget) (r : MasteringResult)
    (h : apply_mastering F M b profile target = some r) :
    r.passes_qc = true ↔ r.final_true_peak ≤ -2 := by
  unfold apply_mastering at h
  split at h <;> dsimp only at h <;> split at h
  · exact absurd h (by simp)
  · rw [Option.some.injEq] at h
    subst h
    simp [QC_TRUE_PEAK_MAX]
  · exact absurd h (by simp)
  · rw [Option.some.injEq] at h
    subst h
    simp [QC_TRUE_PEAK_MAX]

/-- Witness for C2 at a concrete buffer and trivial interpretations. -/
theorem c2_passes_qc_iff_true_peak_le_witness :
    (MasteringResult.mk 0 0 false).passes_qc = true ↔
      (MasteringResult.mk 0 0 false).final_true_peak ≤ -2 :=
  c2_passes_qc_iff_true_peak_le zeroOps zeroMeters
    ⟨[[1, 0, 0, 0, 0]], 1000, 1⟩ .Custom .Medium _ (by decide)

/-! ## C8: unknown fix modules are skipped -/

/-- C8: a fix-module name outside the six recognized ones leaves the buffer
and the change list exactly as if the name had not been requested at all;
the recognized modules around it still run in request order. -/
theorem c8_unknown_fix_module_skipped (F : FloatOps) (b : AudioBuffer)
    (l1 l2 : List String) (name : String) (h : name ∉ validFixModules) :
    apply_fixes F b (l1 ++ name :: l2) = apply_fixes F b (l1 ++ l2) := by
  induction l1 generalizing b with
  | nil =>
    simp only [validFixModules, List.mem_cons, List.not_mem_nil, or_false, not_or] at h
    obtain ⟨h1, h2, h3, h4, h5, h6⟩ := h
    simp only [List.nil_append, apply_fixes, applyModule, if_neg h1, if_neg h2, if_neg h3,
      if_neg h4, if_neg h5, if_neg h6, Option.toList_none, List.nil_append]
  | cons m ms ih =>
    simp only [List.cons_append, apply_fixes, List.append_eq]
    rw [ih]

/-- Witness for C8: the unknown name "bogus" between two recognized modules
changes nothing. -/
theorem c8_unknown_fix_module_skipped_witness :
    ("bogus" ∉ validFixModules) ∧
      apply_fixes zeroOps ⟨[[1 / 2, 0, 1 / 4]], 44100, 1⟩
          (["dc_offset"] ++ "bogus" :: ["silence_trim"]) =
        apply_fixes zeroOps ⟨[[1 / 2, 0, 1 / 4]], 44100, 1⟩ (["dc_offset"] ++ ["silence_trim"]) :=
  ⟨by decide,
   c8_unknown_fix_module_skipped zeroOps ⟨[[1 / 2, 0, 1 / 4]], 44100, 1⟩
     ["dc_offset"] ["silence_trim"] "bogus" (by decide)⟩

/-! ## C9: the limiter is not total on buffers shorter than the lookahead -/

theorem biquadGo_length (b0 b1 b2 a1 a2 : ℚ) (l : List ℚ) :
    ∀ x1 x2 y1 y2, (biquadGo b0 b1 b2 a1 a2 x1 x2 y1 y2 l).length = l.length := by
  induction l with
  | nil => intro x1 x2 y1 y2; rfl
  | cons x rest ih => intro x1 x2 y1 y2; simp [biquadGo, ih]

theorem apply_biquad_length (b0 b1 b2 a1 a2 : ℚ) (l : List ℚ) :
    (apply_biquad b0 b1 b2 a1 a2 l).length = l.length :=
  biquadGo_length b0 b1 b2 a1 a2 l 0 0 0 0

@[simp] theorem apply_low_shelf_length (F : FloatOps) (sr freq g : ℚ) (ch : List ℚ) :
    (apply_low_shelf F sr freq g ch).length = ch.length := by
  unfold apply_low_shelf; exact apply_biquad_length ..

@[simp] theorem apply_high_shelf_length (F : FloatOps) (sr freq g : ℚ) (ch : List ℚ) :
    (apply_high_shelf F sr freq g ch).length = ch.length := by
  unfold apply_high_shelf; exact apply_biquad_length ..

@[simp] theorem apply_peaking_eq_length (F : FloatOps) (sr freq g q : ℚ) (ch : List ℚ) :
    (apply_peaking_eq F sr freq g q ch).length = ch.length := by
  unfold apply_peaking_eq; exact apply_biquad_length ..

@[simp] theorem apply_lowpass_butterworth_length (F : FloatOps) (sr freq : ℚ) (ch : List ℚ) :
    (apply_lowpass_butterworth F sr freq ch).length = ch.length := by
  unfold apply_lowpass_butterworth; exact apply_biquad_length ..

@[simp] theorem apply_highpass_butterworth_length (F : FloatOps) (sr freq : ℚ) (ch : List ℚ) :
    (apply_highpass_butterworth F sr freq ch).length = ch.length := by
  unfold apply_highpass_butterworth; exact apply_biquad_length ..

@[simp] theorem apply_lowpass_lr4_length (F : FloatOps) (sr freq : ℚ) (ch : List ℚ) :
    (apply_lowpass_lr4 F sr freq ch).length = ch.length := by
  unfold apply_lowpass_lr4; simp

@[simp] theorem apply_highpass_lr4_length (F : FloatOps) (sr freq : ℚ) (ch : List ℚ) :
    (apply_highpass_lr4 F sr freq ch).length = ch.length := by
  unfold apply_highpass_lr4; simp

theorem compressGo_length (F : FloatOps) (t r ac rc : ℚ) (l : List ℚ) :
    ∀ env, (compressGo F t r ac rc env l).length = l.length := by
  induction l with
  | nil => intro env; rfl
  | cons x rest ih => intro env; simp [compressGo, ih]

@[simp] theorem apply_compression_length (F : FloatOps) (sr t r am rm : ℚ) (ch : List ℚ) :
    (apply_compression F sr t r am rm ch).length = ch.length := by
  unfold apply_compression; exact compressGo_length ..

theorem apply_eq_shape (F : FloatOps) (b : AudioBuffer) (p : MasterProfile) :
    (apply_eq F b p).sample_rate = b.sample_rate ∧
      (apply_eq F b p).channels = b.channels ∧
      (apply_eq F b p).samples.map List.length = b.samples.map List.length := by
  unfold apply_eq
  dsimp only
  split
  · exact ⟨rfl, rfl, rfl⟩
  · refine ⟨rfl, rfl, ?_⟩
    rw [List.map_map]
    refine List.map_congr_left (fun ch _ => ?_)
    simp only [Function.comp_apply]
    split <;> split <;> split <;> simp

theorem apply_multiband_compression_shape (F : FloatOps) (b : AudioBuffer) (p : MasterProfile) :
    (apply_multiband_compression F b p).sample_rate = b.sample_rate ∧
      (apply_multiband_compression F b p).channels = b.channels ∧
      (apply_multiband_compression F b p).samples.map List.length =
        b.samples.map List.length := by
  unfold apply_multiband_compression
  dsimp only
  refine ⟨rfl, rfl, ?_⟩
  rw [List.map_map]
  refine List.map_congr_left (fun ch _ => ?_)
  simp [Function.comp_apply]

theorem apply_saturation_shape (F : FloatOps) (b : AudioBuffer) (p : MasterProfile) :
    (apply_saturation F b p).sample_rate = b.sample_rate ∧
      (apply_saturation F b p).channels = b.channels ∧
      (apply_saturation F b p).samples.map List.length = b.samples.map List.length := by
  unfold apply_saturation
  dsimp only
  refine ⟨rfl, rfl, ?_⟩
  rw [List.map_map]
  refine List.map_congr_left (fun ch _ => ?_)
  simp

theorem limiterChannel_short (L : ℕ) (mg cl rc : ℚ) (ch : List ℚ)
    (h1 : 0 < ch.length) (h2 : ch.length < L) :
    limiterChannel L mg cl rc ch = none := by
  unfold limiterChannel checkedSub
  rw [if_neg (by omega : ¬ (L = 0 ∧ 0 < ch.length))]
  rw [if_neg (by omega : ¬ L ≤ ch.length)]

/-- C9: a buffer whose channels are non-empty but shorter than the 5 ms
lookahead makes the tail-flush subtraction `len - lookahead_samples`
underflow, so `apply_limiter` (and hence the whole mastering operation, for
every profile) aborts instead of returning a result. -/
theorem c9_limiter_short_buffer_panics (F : FloatOps) (M : Meters) (b : AudioBuffer)
    (target : LoudnessTarget) (hne : b.samples ≠ [])
    (hlen : ∀ ch ∈ b.samples, 0 < ch.length ∧ ch.length < lookaheadSamples b.sample_rate) :
    apply_limiter F M b target = none ∧
      ∀ profile, apply_mastering F M b profile target = none := by
  have hlim : ∀ b2 : AudioBuffer, b2.sample_rate = b.sample_rate →
      b2.samples.map List.length = b.samples.map List.length →
      apply_limiter F M b2 target = none := by
    intro b2 hrate hmap
    unfold apply_limiter
    rcases hc : b2.samples with _ | ⟨c, cs⟩
    · exfalso
      rw [hc] at hmap
      exact hne (List.map_eq_nil_iff.mp hmap.symm)
    · have hmem : c.length ∈ b.samples.map List.length := by
        rw [← hmap, hc]; exact List.mem_map_of_mem _ (List.mem_cons_self c cs)
      obtain ⟨ch0, hch0, hlen0⟩ := List.mem_map.mp hmem
      have hb := hlen ch0 hch0
      have hcl : limiterChannel (lookaheadSamples b2.sample_rate) (F.powf 10
          ((target.lufs_value - M.loudness b2) / 20)) (F.powf 10 (QC_TRUE_PEAK_MAX / 20))
          (F.fexp (-1 / (100 * (b2.sample_rate : ℚ) / 1000))) c = none :=
        limiterChannel_short _ _ _ _ c (by omega) (by rw [hrate]; omega)
      dsimp only
      simp only [mapChannels, hcl]
  refine ⟨hlim b rfl rfl, fun profile => ?_⟩
  obtain ⟨e1, e2, e3⟩ := apply_eq_shape F b profile
  obtain ⟨m1, m2, m3⟩ := apply_multiband_compression_shape F (apply_eq F b profile) profile
  obtain ⟨s1, s2, s3⟩ :=
    apply_saturation_shape F (apply_multiband_compression F (apply_eq F b profile) profile)
      profile
  have hnone : apply_limiter F M
      (if profile = MasterProfile.Warm ∨ profile = MasterProfile.Punchy then
        apply_saturation F (apply_multiband_compression F (apply_eq F b profile) profile) profile
      else apply_multiband_compression F (apply_eq F b profile) profile) target = none := by
    split
    · exact hlim _ (by rw [s1, m1, e1]) (by rw [s3, m3, e3])
    · exact hlim _ (by rw [m1, e1]) (by rw [m3, e3])
  unfold apply_mastering
  dsimp only
  rw [hnone]

/-- Witness for C9: one channel of a single sample at 44.1 kHz (lookahead =
220 frames) aborts both the limiter and a full mastering run. -/
theorem c9_limiter_short_buffer_panics_witness :
    apply_limiter zeroOps zeroMeters ⟨[[1 / 2]], 44100, 1⟩ .Medium = none ∧
      apply_mastering zeroOps zeroMeters ⟨[[1 / 2]], 44100, 1⟩ .Balanced .Medium = none := by
  have h := c9_limiter_short_buffer_panics zeroOps zeroMeters ⟨[[1 / 2]], 44100, 1⟩ .Medium
    (by decide) (by decide)
  exact ⟨h.1, h.2 .Balanced⟩

/-! ## C4: WAV sample encoding -/

theorem foldl_append_singleton (g : ℕ → ℤ) (l : List ℕ) (acc : List ℤ) :
    l.foldl (fun a i => a ++ [g i]) acc = acc ++ l.map g := by
  induction l generalizing acc with
  | nil => simp
  | cons x t ih => simp [ih]

theorem nested_foldl_interleave (e : ℕ → ℕ → ℤ) (n : ℕ) (l : List ℕ) (acc : List ℤ) :
    l.foldl (fun a i => (List.range n).foldl (fun a2 ch => a2 ++ [e ch i]) a) acc =
      acc ++ l.flatMap (fun i => (List.range n).map (fun ch => e ch i)) := by
  induction l generalizing acc with
  | nil => simp
  | cons x t ih =>
    rw [List.foldl_cons, foldl_append_singleton, ih]
    simp [List.append_assoc]

theorem writeFrames_eq_flatMap (b : AudioBuffer) (factor : ℚ) :
    writeFrames b factor = (List.range b.frame_count).flatMap (fun i =>
      (List.range b.channels).map (fun ch => encodeSample factor (sampleAt b ch i))) := by
  unfold writeFrames
  simpa using nested_foldl_interleave (fun ch i => encodeSample factor (sampleAt b ch i))
    b.channels (List.range b.frame_count) []

/-- C4 (amended): 16-bit WAV encoding writes
`trunc(clamp(x, −1, 1) · 32767)` — truncation toward zero via the Rust `as`
cast, not rounding; 24-bit uses factor 8388607 and 32-bit uses 2147483647;
channels are interleaved frame-by-frame; any other bit depth fails with an
error. -/
theorem c4_wav_encode_characterization (b : AudioBuffer) (d : ℕ) :
    (d = 16 ∨ d = 24 ∨ d = 32 →
      write_wav_file b d = .ok ((List.range b.frame_count).flatMap (fun i =>
        (List.range b.channels).map (fun ch =>
          ratTruncToInt (clampQ (sampleAt b ch i) (-1) 1 * wavFactor d))))) ∧
    (¬ (d = 16 ∨ d = 24 ∨ d = 32) →
      write_wav_file b d = .error ("Unsupported bit depth: " ++ toString d)) := by
  constructor
  · rintro (rfl | rfl | rfl) <;>
      simp [write_wav_file, writeFrames_eq_flatMap, wavFactor, encodeSample]
  · intro hd
    unfold write_wav_file
    split
    · exact absurd (Or.inl rfl) hd
    · exact absurd (Or.inr (Or.inl rfl)) hd
    · exact absurd (Or.inr (Or.inr rfl)) hd
    · rfl

/-- Witness for C4 (amended): a concrete 24-bit encode and a concrete
unsupported depth. -/
theorem c4_wav_encode_characterization_witness :
    write_wav_file ⟨[[1 / 2, -1 / 4]], 48000, 1⟩ 24 =
      .ok [ratTruncToInt (clampQ (1 / 2) (-1) 1 * 8388607),
           ratTruncToInt (clampQ (-1 / 4) (-1) 1 * 8388607)] ∧
    write_wav_file ⟨[[1 / 2]], 48000, 1⟩ 20 =
      .error ("Unsupported bit depth: " ++ toString (20 : ℕ)) := by
  constructor
  · exact ((c4_wav_encode_characterization ⟨[[1 / 2, -1 / 4]], 48000, 1⟩ 24).1
      (by norm_num)).trans (by with_unfolding_all decide)
  · exact (c4_wav_encode_characterization ⟨[[1 / 2]], 48000, 1⟩ 20).2 (by norm_num)

/-- C4 counterexample: at the input sample 1/2 (whose scaled value 16383.5 is
exact in f32) the 16-bit encoder writes trunc(16383.5) = 16383, while the
claimed `round` gives 16384. -/
theorem c4_wav_encode_round_counterexample :
    write_wav_file ⟨[[1 / 2]], 44100, 1⟩ 16 = .ok [16383] ∧
      roundHalfAway (clampQ (1 / 2) (-1) 1 * 32767) = 16384 ∧ (16383 : ℤ) ≠ 16384 :=
  ⟨by with_unfolding_all decide, by with_unfolding_all decide, by decide⟩

/-! ## C7: codec artifact score -/

theorem totalError_eq_zero_of_minFrames (o d : AudioBuffer) (h : minFrames o d = 0) :
    totalError o d = 0 := by
  simp [totalError, h]

/-- C7: the artifact score is `clamp((60 − snr)/60 · 100, 0, 100)` with
`snr = 10·log10(Σorig² / Σ(orig−dec)²)` over the overlapping prefix across
shared channels (whenever both sums are positive so that the claimed formula
is defined), and it always lies in [0, 100]. -/
theorem c7_artifact_score_formula (o d : AudioBuffer) :
    (0 ≤ calculate_artifact_score o d ∧ calculate_artifact_score o d ≤ 100) ∧
    (0 < totalError o d → 0 < totalEnergy o d →
      calculate_artifact_score o d =
        max 0 (min ((60 - 10 * Real.logb 10 ((totalEnergy o d : ℝ) / (totalError o d : ℝ)))
          / 60 * 100) 100)) := by
  constructor
  · unfold calculate_artifact_score
    split
    · norm_num
    · exact ⟨le_max_left _ _, max_le (by norm_num) (min_le_right _ _)⟩
  · intro he hE
    have hmf : ¬ minFrames o d = 0 := by
      intro h0
      rw [totalError_eq_zero_of_minFrames o d h0] at he
      exact lt_irrefl 0 he
    unfold calculate_artifact_score snrOf
    rw [if_neg hmf, if_pos ⟨he, hE⟩]

/-- Witness for C7 at a concrete original/decoded pair with positive error
and energy. -/
theorem c7_artifact_score_formula_witness :
    calculate_artifact_score ⟨[[1]], 44100, 1⟩ ⟨[[1 / 2]], 44100, 1⟩ =
      max 0 (min ((60 - 10 * Real.logb 10
          ((totalEnergy ⟨[[1]], 44100, 1⟩ ⟨[[1 / 2]], 44100, 1⟩ : ℝ) /
            (totalError ⟨[[1]], 44100, 1⟩ ⟨[[1 / 2]], 44100, 1⟩ : ℝ))) / 60 * 100) 100) :=
  (c7_artifact_score_formula ⟨[[1]], 44100, 1⟩ ⟨[[1 / 2]], 44100, 1⟩).2
    (by with_unfolding_all decide) (by with_unfolding_all decide)

/-! ## C5: sample peak -/

theorem le_foldl_absmax (ch : List ℚ) : ∀ m : ℚ, m ≤ ch.foldl (fun m2 s => max m2 |s|) m := by
  induction ch with
  | nil => intro m; exact le_refl m
  | cons x t ih => intro m; exact le_trans (le_max_left m |x|) (ih (max m |x|))

theorem maxAbsSample_nonneg (b : AudioBuffer) : 0 ≤ maxAbsSample b := by
  unfold maxAbsSample
  generalize hq : (0 : ℚ) = q
  rw [← hq]
  have : ∀ (l : List (List ℚ)) (m : ℚ), m ≤ l.foldl (fun m2 ch =>
      ch.foldl (fun m3 s => max m3 |s|) m2) m := by
    intro l
    induction l with
    | nil => intro m; exact le_refl m
    | cons c t ih => intro m; exact le_trans (le_foldl_absmax c m) (ih _)
  exact this b.samples 0

/-- C5 (amended): the sample peak equals `20·log10(max|x|)` (−96 when the
maximum is zero); the claimed range `−96 ≤ peak ≤ 0` holds only under the
additional assumptions `10^(−4.8) ≤ max|x| ≤ 1`, which the code does not
enforce. -/
theorem c5_sample_peak_characterization (b : AudioBuffer) :
    (maxAbsSample b = 0 → calculate_sample_peak b = -96) ∧
    (0 < maxAbsSample b →
      calculate_sample_peak b = 20 * Real.logb 10 ((maxAbsSample b : ℝ))) ∧
    ((10 : ℝ) ^ (-(24 : ℝ) / 5) ≤ ((maxAbsSample b : ℝ)) → maxAbsSample b ≤ 1 →
      -96 ≤ calculate_sample_peak b ∧ calculate_sample_peak b ≤ 0) := by
  refine ⟨?_, ?_, ?_⟩
  · intro h
    unfold calculate_sample_peak
    rw [if_neg]
    rw [h]
    exact lt_irrefl 0
  · intro h
    unfold calculate_sample_peak
    rw [if_pos h]
  · intro hlo hhi
    have hpos : (0 : ℝ) < ((maxAbsSample b : ℝ)) :=
      lt_of_lt_of_le (Real.rpow_pos_of_pos (by norm_num) _) hlo
    have hposq : 0 < maxAbsSample b := by exact_mod_cast hpos
    unfold calculate_sample_peak
    rw [if_pos hposq]
    constructor
    · have hlog : (-(24 : ℝ) / 5) ≤ Real.logb 10 ((maxAbsSample b : ℝ)) :=
        (Real.le_logb_iff_rpow_le (by norm_num) hpos).mpr hlo
      linarith
    · have hlog : Real.logb 10 ((maxAbsSample b : ℝ)) ≤ 0 :=
        Real.logb_nonpos (by norm_num) (le_of_lt hpos) (by exact_mod_cast hhi)
      linarith

/-- Witness for C5 (amended) at a full-scale buffer. -/
theorem c5_sample_peak_characterization_witness :
    -96 ≤ calculate_sample_peak ⟨[[1]], 44100, 1⟩ ∧
      calculate_sample_peak ⟨[[1]], 44100, 1⟩ ≤ 0 := by
  have h1 : maxAbsSample ⟨[[1]], 44100, 1⟩ = 1 := by
    unfold maxAbsSample
    simp only [List.foldl_cons, List.foldl_nil]
    rw [abs_one]
    exact max_eq_right zero_le_one
  refine (c5_sample_peak_characterization ⟨[[1]], 44100, 1⟩).2.2 ?_ ?_
  · rw [h1]
    push_cast
    exact Real.rpow_le_one_of_one_le_of_nonpos (by norm_num) (by norm_num)
  · rw [h1]

/-- C5 counterexample: a buffer whose only sample is 1/100000 gets the
sample peak `20·log10(10^−5) = −100`, strictly below the claimed −96 dBFS
floor (the code clamps to −96 only for exactly-zero signals). -/
theorem c5_sample_peak_below_floor_counterexample :
    calculate_sample_peak ⟨[[1 / 100000]], 44100, 1⟩ < -96 := by
  have hm : maxAbsSample ⟨[[1 / 100000]], 44100, 1⟩ = 1 / 100000 := by
    unfold maxAbsSample
    simp only [List.foldl_cons, List.foldl_nil]
    rw [abs_of_pos (by norm_num : (0 : ℚ) < 1 / 100000)]
    exact max_eq_right (by norm_num)
  unfold calculate_sample_peak
  rw [if_pos (by rw [hm]; norm_num), hm]
  have hcast : (((1 : ℚ) / 100000 : ℚ) : ℝ) = (10 : ℝ) ^ (-(5 : ℝ)) := by
    rw [Real.rpow_neg (by norm_num)]
    rw [show ((5 : ℝ)) = ((5 : ℕ) : ℝ) by norm_num, Real.rpow_natCast]
    push_cast
    norm_num
  rw [hcast, Real.logb_rpow (by norm_num) (by norm_num)]
  norm_num

/-! ## Clip-repair scan lemmas (shared by C3, C6, C10) -/

theorem getD_set_ne (l : List ℚ) (i j : ℕ) (a : ℚ) (h : i ≠ j) :
    (l.set i a).getD j 0 = l.getD j 0 := by
  simp [List.getD, List.getElem?_set, h]

theorem getD_set_self (l : List ℚ) (i : ℕ) (a : ℚ) (h : i < l.length) :
    (l.set i a).getD i 0 = a := by
  simp [List.getD, List.getElem?_set, h]

theorem foldl_set_length (pos : ℕ → ℕ) (v : ℕ → ℚ) (l : List ℕ) (ch : List ℚ) :
    (l.foldl (fun c j => c.set (pos j) (v j)) ch).length = ch.length := by
  induction l generalizing ch with
  | nil => rfl
  | cons a t ih => simp [ih, List.length_set]

theorem writeRun_length (sv ev : ℚ) (start rlen : ℕ) (ch : List ℚ) :
    (writeRun sv ev start rlen ch).length = ch.length := by
  unfold writeRun
  exact foldl_set_length _ _ _ _

theorem foldl_set_getD_outside (start : ℕ) (v : ℕ → ℚ) (r k : ℕ) (ch : List ℚ)
    (hk : k < start ∨ start + r ≤ k) :
    ((List.range r).foldl (fun c j => c.set (start + j) (v j)) ch).getD k 0 = ch.getD k 0 := by
  induction r with
  | zero => rfl
  | succ n ih =>
    rw [List.range_succ, List.foldl_append]
    simp only [List.foldl_cons, List.foldl_nil]
    rw [getD_set_ne _ _ _ _ (by omega)]
    exact ih (by omega)

theorem foldl_set_getD_inside (start : ℕ) (v : ℕ → ℚ) (r j : ℕ) (ch : List ℚ)
    (hj : j < r) (hlen : start + j < ch.length) :
    ((List.range r).foldl (fun c j2 => c.set (start + j2) (v j2)) ch).getD (start + j) 0 =
      v j := by
  induction r with
  | zero => omega
  | succ n ih =>
    rw [List.range_succ, List.foldl_append]
    simp only [List.foldl_cons, List.foldl_nil]
    rcases Nat.lt_or_ge j n with h | h
    · rw [getD_set_ne _ _ _ _ (by omega)]
      exact ih h
    · have hjn : j = n := by omega
      subst hjn
      rw [getD_set_self]
      rw [foldl_set_length]
      exact hlen

theorem writeRun_getD_outside (sv ev : ℚ) (start rlen k : ℕ) (ch : List ℚ)
    (hk : k < start ∨ start + rlen ≤ k) :
    (writeRun sv ev start rlen ch).getD k 0 = ch.getD k 0 := by
  unfold writeRun
  exact foldl_set_getD_outside start _ rlen k ch hk

theorem writeRun_getD_inside (sv ev : ℚ) (start rlen j : ℕ) (ch : List ℚ)
    (hj : j < rlen) (hlen : start + j < ch.length) :
    (writeRun sv ev start rlen ch).getD (start + j) 0 =
      sv + (ev - sv) * smoothStep (((j : ℚ) + 1) / ((rlen : ℚ) + 1)) := by
  unfold writeRun
  exact foldl_set_getD_inside start _ rlen j ch hj hlen

theorem runLen_eq_zero (ch : List ℚ) (len i : ℕ)
    (h : ¬ (i < len - 1 ∧ clipThreshold ≤ |ch.getD i 0|)) : runLen ch len i = 0 := by
  conv_lhs => rw [runLen]
  rw [if_neg h]

theorem runLen_succ (ch : List ℚ) (len i : ℕ)
    (h : i < len - 1 ∧ clipThreshold ≤ |ch.getD i 0|) :
    runLen ch len i = runLen ch len (i + 1) + 1 := by
  conv_lhs => rw [runLen]
  rw [if_pos h]

/-- Where the inner `while` stops when the clipped samples form the run
`[i, e)` with nothing clipped at `e` (or `e = len`). -/
theorem runEnd_of_run (ch : List ℚ) (len e i : ℕ)
    (hstop : e = len ∨ (e < len ∧ |ch.getD e 0| < clipThreshold))
    (hi : i ≤ min e (len - 1))
    (hrun : ∀ j, i ≤ j → j < e → clipThreshold ≤ |ch.getD j 0|) :
    runEnd ch len i = min e (len - 1) := by
  rcases Nat.lt_or_ge i (min e (len - 1)) with hlt | hge
  · have hc : i < len - 1 ∧ clipThreshold ≤ |ch.getD i 0| :=
      ⟨by omega, hrun i le_rfl (by omega)⟩
    have hrec := runEnd_of_run ch len e (i + 1) hstop (by omega)
      (fun j hj1 hj2 => hrun j (by omega) hj2)
    unfold runEnd at hrec ⊢
    rw [runLen_succ ch len i hc]
    omega
  · have hc : ¬ (i < len - 1 ∧ clipThreshold ≤ |ch.getD i 0|) := by
      rcases hstop with h | ⟨h1, h2⟩
      · intro hcon
        omega
      · intro hcon
        rcases le_or_lt e (len - 1) with h3 | h3
        · have hie : i = e := by omega
          subst hie
          exact absurd hcon.2 (not_le.mpr h2)
        · omega
    unfold runEnd
    rw [runLen_eq_zero ch len i hc]
    omega
termination_by min e (len - 1) - i
decreasing_by omega

set_option maxHeartbeats 1600000 in
/-- The scan does nothing when every index it can inspect from `i` on is
below the clip threshold. -/
theorem repairLoop_clean (len : ℕ) (ch : List ℚ) (i cnt : ℕ)
    (h : ∀ j, i ≤ j → j < len - 1 → |ch.getD j 0| < clipThreshold) :
    repairLoop len ch i cnt = (ch, cnt) := by
  rcases Nat.lt_or_ge i (len - 1) with hlt | hge
  · have hcl : ¬ clipThreshold ≤ |ch.getD i 0| := not_le.mpr (h i le_rfl hlt)
    conv_lhs => rw [repairLoop.eq_def]
    rw [if_pos hlt, if_neg hcl]
    exact repairLoop_clean len ch (i + 1) cnt (fun j hj1 hj2 => h j (by omega) hj2)
  · conv_lhs => rw [repairLoop.eq_def]
    rw [if_neg (by omega)]
termination_by len - i
decreasing_by omega

set_option maxHeartbeats 1600000 in
/-- The scan skips over an initial clean stretch. -/
theorem repairLoop_skip (len : ℕ) (ch : List ℚ) (s i cnt : ℕ) (his : i ≤ s)
    (hs : s < len - 1)
    (h : ∀ j, i ≤ j → j < s → |ch.getD j 0| < clipThreshold) :
    repairLoop len ch i cnt = repairLoop len ch s cnt := by
  rcases Nat.lt_or_ge i s with hlt | hge
  · have hcl : ¬ clipThreshold ≤ |ch.getD i 0| := not_le.mpr (h i le_rfl hlt)
    conv_lhs => rw [repairLoop.eq_def]
    rw [if_pos (by omega), if_neg hcl]
    exact repairLoop_skip len ch s (i + 1) cnt (by omega) hs
      (fun j hj1 hj2 => h j (by omega) hj2)
  · have : i = s := by omega
    rw [this]
termination_by s - i
decreasing_by omega

/-! ## C6: clip repair is the identity on clean signals -/

/-- C6: a buffer in which no sample reaches `|x| ≥ 0.99` is returned with
every sample unchanged and no reported change. -/
theorem c6_clip_repair_clean_identity (b : AudioBuffer)
    (h : ∀ ch ∈ b.samples, ∀ x ∈ ch, |x| < clipThreshold) :
    apply_clip_repair b = (b, none) := by
  have hch : ∀ ch ∈ b.samples, repairChannel ch = (ch, 0) := by
    intro ch hmem
    unfold repairChannel
    split
    · rfl
    · apply repairLoop_clean
      intro j hj1 hj2
      have hjlen : j < ch.length := by omega
      rw [List.getD_eq_getElem ch 0 hjlen]
      exact h ch hmem _ (List.getElem_mem hjlen)
  have hpairs : b.samples.map repairChannel = b.samples.map (fun ch => (ch, 0)) :=
    List.map_congr_left hch
  have htot : ∀ (l : List (List ℚ)) (acc : ℕ),
      ((l.map (fun ch => (ch, (0 : ℕ)))).foldl (fun a p => a + p.2) acc) = acc := by
    intro l
    induction l with
    | nil => intro acc; rfl
    | cons c t ih => intro acc; simpa using ih acc
  unfold apply_clip_repair
  dsimp only
  rw [hpairs, List.map_map, htot]
  have hid : (Prod.fst ∘ fun ch : List ℚ => (ch, (0 : ℕ))) = id := rfl
  rw [hid, List.map_id]
  norm_num

/-- Witness for C6 on a concrete clean channel. -/
theorem c6_clip_repair_clean_identity_witness :
    apply_clip_repair ⟨[[1 / 2, -1 / 2, 1 / 4]], 44100, 1⟩ =
      (⟨[[1 / 2, -1 / 2, 1 / 4]], 44100, 1⟩, none) :=
  c6_clip_repair_clean_identity ⟨[[1 / 2, -1 / 2, 1 / 4]], 44100, 1⟩
    (by with_unfolding_all decide)

/-! ## C3: what clip repair actually writes -/

set_option maxHeartbeats 1600000 in
/-- When the clipped samples of a channel form the single maximal run
`[s, e)` with `1 ≤ s ≤ len − 2`, the whole channel repair equals one
`writeRun` of length `min e (len−1) − s + 1` anchored at `ch[s−1]` and
`ch[min e (len−1)]`, with that length as the reported count. -/
theorem repairLoop_single_run (ch : List ℚ) (s e : ℕ)
    (hs1 : 1 ≤ s) (hs2 : s < ch.length - 1) (hse : s < e) (hel : e ≤ ch.length)
    (hbefore : ∀ j, j < s → |ch.getD j 0| < clipThreshold)
    (hrun : ∀ j, s ≤ j → j < e → clipThreshold ≤ |ch.getD j 0|)
    (hafter : ∀ j, e ≤ j → j < ch.length → |ch.getD j 0| < clipThreshold) :
    repairChannel ch =
      (writeRun (ch.getD (s - 1) 0) (ch.getD (min e (ch.length - 1)) 0) s
        (min e (ch.length - 1) - s + 1) ch,
       min e (ch.length - 1) - s + 1) := by
  have hA : s ≤ min e (ch.length - 1) := le_min (by omega) (by omega)
  have hB : min e (ch.length - 1) ≤ ch.length - 1 := min_le_right _ _
  have hC : min e (ch.length - 1) ≤ e := min_le_left _ _
  have hD : ∀ j, min e (ch.length - 1) < j → j < ch.length - 1 →
      |ch.getD j 0| < clipThreshold := by
    intro j hj1 hj2
    rcases min_cases e (ch.length - 1) with ⟨hm1, hm2⟩ | ⟨hm1, hm2⟩
    · exact hafter j (by omega) (by omega)
    · omega
  have hlen3 : ¬ ch.length < 3 := by omega
  unfold repairChannel
  rw [if_neg hlen3]
  rw [repairLoop_skip ch.length ch s 1 0 hs1 hs2 (fun j hj1 hj2 => hbefore j hj2)]
  conv_lhs => rw [repairLoop.eq_def]
  rw [if_pos hs2, if_pos (hrun s le_rfl hse)]
  dsimp only
  rw [runEnd_of_run ch ch.length e s
    (by rcases lt_or_eq_of_le hel with h | h
        · exact Or.inr ⟨h, hafter e le_rfl h⟩
        · exact Or.inl h)
    hA hrun]
  rw [if_pos ⟨by omega, by omega⟩]
  rw [repairLoop_clean ch.length _ _ _ ?_]
  · rw [Nat.zero_add]
  · intro j hj1 hj2
    rw [writeRun_getD_outside _ _ _ _ _ _ (Or.inr (by omega))]
    exact hD j (by omega) hj2

set_option maxHeartbeats 800000 in
/-- C3 (amended): for a channel whose clipped samples (`|x| ≥ 0.99`) form a
single maximal run `[s, e)` with `1 ≤ s ≤ len − 2`, clip repair overwrites
the samples at indices `s..e2` *inclusive of the end anchor index*
`e2 = min e (len−1)` with `x[s−1] + (x[e2] − x[s−1])·(3t² − 2t³)` where
`t = (j+1)/((e2−s+1)+1)` — the run length plus one samples, each with
denominator `e2−s+2` — leaves all other samples unchanged, and counts
`e2−s+1` repaired samples.  (A run reaching the final index is repaired
against the clipped anchor `x[len−1]` rather than skipped, and index 0 is
never scanned.) -/
theorem c3_clip_repair_run_semantics (ch : List ℚ) (s e : ℕ)
    (hs1 : 1 ≤ s) (hs2 : s < ch.length - 1) (hse : s < e) (hel : e ≤ ch.length)
    (hbefore : ∀ j, j < s → |ch.getD j 0| < clipThreshold)
    (hrun : ∀ j, s ≤ j → j < e → clipThreshold ≤ |ch.getD j 0|)
    (hafter : ∀ j, e ≤ j → j < ch.length → |ch.getD j 0| < clipThreshold) :
    (repairChannel ch).2 = min e (ch.length - 1) - s + 1 ∧
    (repairChannel ch).1.length = ch.length ∧
    (∀ k, k < s → (repairChannel ch).1.getD k 0 = ch.getD k 0) ∧
    (∀ k, min e (ch.length - 1) < k → (repairChannel ch).1.getD k 0 = ch.getD k 0) ∧
    (∀ j, j < min e (ch.length - 1) - s + 1 →
      (repairChannel ch).1.getD (s + j) 0 =
        ch.getD (s - 1) 0 + (ch.getD (min e (ch.length - 1)) 0 - ch.getD (s - 1) 0) *
          smoothStep (((j : ℚ) + 1) / (((min e (ch.length - 1) - s + 1 : ℕ) : ℚ) + 1))) := by
  have hA : s ≤ min e (ch.length - 1) := le_min (by omega) (by omega)
  have hB : min e (ch.length - 1) ≤ ch.length - 1 := min_le_right _ _
  rw [repairLoop_single_run ch s e hs1 hs2 hse hel hbefore hrun hafter]
  refine ⟨rfl, writeRun_length .., ?_, ?_, ?_⟩
  · intro k hk
    exact writeRun_getD_outside _ _ _ _ _ _ (Or.inl hk)
  · intro k hk
    exact writeRun_getD_outside _ _ _ _ _ _ (Or.inr (by omega))
  · intro j hj
    exact writeRun_getD_inside _ _ _ _ _ _ hj (by omega)

set_option maxHeartbeats 800000 in
/-- C3 counterexample.  On the channel `[0, 1, 1, 0.8, 0.2]` the maximal
clipped run is `[1, 3)`: the claim says samples 1 and 2 are replaced with
`t = (j+1)/3` and sample 3 (the end anchor) stays 0.8, but the code also
overwrites sample 3, giving `0.8·smoothstep(3/4) = 27/40 ≠ 0.8`.  And on
`[0.5, 1, 1]` the clipped run touches the right channel boundary, which the
claim says is left untouched, yet the code repairs it (2 samples). -/
theorem c3_clip_repair_counterexample :
    (repairChannel [0, 1, 1, 4 / 5, 1 / 5]).1.getD 3 0 = 27 / 40 ∧
      (27 / 40 : ℚ) ≠ 4 / 5 ∧
      repairChannel [1 / 2, 1, 1] ≠ ([1 / 2, 1, 1], 0) := by
  have h1 := repairLoop_single_run [0, 1, 1, 4 / 5, 1 / 5] 1 3 (by norm_num) (by norm_num)
    (by norm_num) (by norm_num)
    (by intro j hj
        have hj0 : j = 0 := by omega
        subst hj0
        simp only [List.getD_cons_zero, List.getD_cons_succ]
        rw [abs_of_nonneg (by norm_num)]
        norm_num [clipThreshold])
    (by intro j hj1 hj2
        rcases (by omega : j = 1 ∨ j = 2) with h | h <;> subst h <;>
          (simp only [List.getD_cons_zero, List.getD_cons_succ];
           rw [abs_of_nonneg (by norm_num)]; norm_num [clipThreshold]))
    (by intro j hj1 hj2
        simp only [List.length_cons, List.length_nil] at hj2
        rcases (by omega : j = 3 ∨ j = 4) with h | h <;> subst h <;>
          (simp only [List.getD_cons_zero, List.getD_cons_succ];
           rw [abs_of_nonneg (by norm_num)]; norm_num [clipThreshold]))
  have h2 := repairLoop_single_run [1 / 2, 1, 1] 1 3 (by norm_num) (by norm_num)
    (by norm_num) (by norm_num)
    (by intro j hj
        have hj0 : j = 0 := by omega
        subst hj0
        simp only [List.getD_cons_zero, List.getD_cons_succ]
        rw [abs_of_nonneg (by norm_num)]
        norm_num [clipThreshold])
    (by intro j hj1 hj2
        rcases (by omega : j = 1 ∨ j = 2) with h | h <;> subst h <;>
          (simp only [List.getD_cons_zero, List.getD_cons_succ];
           rw [abs_of_nonneg (by norm_num)]; norm_num [clipThreshold]))
    (by intro j hj1 hj2
        simp only [List.length_cons, List.length_nil] at hj2
        omega)
  have h1e : repairChannel [0, 1, 1, 4 / 5, 1 / 5] =
      (writeRun 0 (4 / 5) 1 3 [0, 1, 1, 4 / 5, 1 / 5], 3) := by
    rw [h1]
    norm_num [List.getD]
  have h2e : repairChannel [1 / 2, 1, 1] = (writeRun (1 / 2) 1 1 2 [1 / 2, 1, 1], 2) := by
    rw [h2]
    norm_num [List.getD]
  refine ⟨?_, by norm_num, ?_⟩
  · rw [h1e]
    show (writeRun 0 (4 / 5) 1 3 [0, 1, 1, 4 / 5, 1 / 5]).getD 3 0 = 27 / 40
    rw [show (3 : ℕ) = 1 + 2 from rfl,
      writeRun_getD_inside 0 (4 / 5) 1 3 2 _ (by norm_num) (by norm_num)]
    norm_num [smoothStep]
  · rw [h2e]
    simp

set_option maxHeartbeats 800000 in
/-- Witness for C3 (amended) on the channel `[0, 1, 1, 0.8, 0.2]` with the
run `[1, 3)`. -/
theorem c3_clip_repair_run_semantics_witness :
    (repairChannel [0, 1, 1, 4 / 5, 1 / 5]).2 = 3 ∧
      (repairChannel [0, 1, 1, 4 / 5, 1 / 5]).1.getD 4 0 = 1 / 5 := by
  have h := c3_clip_repair_run_semantics [0, 1, 1, 4 / 5, 1 / 5] 1 3 (by norm_num)
    (by norm_num) (by norm_num) (by norm_num)
    (by intro j hj
        have hj0 : j = 0 := by omega
        subst hj0
        simp only [List.getD_cons_zero, List.getD_cons_succ]
        rw [abs_of_nonneg (by norm_num)]
        norm_num [clipThreshold])
    (by intro j hj1 hj2
        rcases (by omega : j = 1 ∨ j = 2) with h | h <;> subst h <;>
          (simp only [List.getD_cons_zero, List.getD_cons_succ];
           rw [abs_of_nonneg (by norm_num)]; norm_num [clipThreshold]))
    (by intro j hj1 hj2
        simp only [List.length_cons, List.length_nil] at hj2
        rcases (by omega : j = 3 ∨ j = 4) with h | h <;> subst h <;>
          (simp only [List.getD_cons_zero, List.getD_cons_succ];
           rw [abs_of_nonneg (by norm_num)]; norm_num [clipThreshold]))
  constructor
  · have h0 := h.1
    norm_num at h0
    exact h0
  · have h0 := h.2.2.2.1 4 (by norm_num)
    rw [h0]
    norm_num [List.getD]

/-! ## C10: apply_fixes preserves the buffer invariant -/

theorem uniformLength_iff_pairwise (b : AudioBuffer) :
    uniformLength b ↔ ∀ c1 ∈ b.samples, ∀ c2 ∈ b.samples, c1.length = c2.length := by
  constructor
  · intro h c1 h1 c2 h2
    rw [h c1 h1, h c2 h2]
  · intro h ch hch
    unfold AudioBuffer.frame_count
    cases hsamp : b.samples with
    | nil => rw [hsamp] at hch; exact absurd hch (List.not_mem_nil ch)
    | cons c cs =>
      simp only [List.headD_cons]
      refine h ch hch c ?_
      rw [hsamp]
      exact List.mem_cons_self c cs

/-- Mapping every channel through a transform whose output length depends
only on the input length preserves the buffer invariant. -/
theorem uniformLength_map (b : AudioBuffer) (f : List ℚ → List ℚ) (g : ℕ → ℕ)
    (hf : ∀ ch, (f ch).length = g ch.length) (h : uniformLength b) :
    uniformLength { b with samples := b.samples.map f } := by
  rw [uniformLength_iff_pairwise] at h ⊢
  intro c1 h1 c2 h2
  simp only [List.mem_map] at h1 h2
  obtain ⟨a1, ha1, rfl⟩ := h1
  obtain ⟨a2, ha2, rfl⟩ := h2
  rw [hf a1, hf a2, h a1 ha1 a2 ha2]

set_option maxHeartbeats 1600000 in
theorem repairLoop_length (len : ℕ) (ch : List ℚ) (i cnt : ℕ) :
    (repairLoop len ch i cnt).1.length = ch.length := by
  rcases Nat.lt_or_ge i (len - 1) with hlt | hge
  · conv_lhs => rw [repairLoop.eq_def]
    rw [if_pos hlt]
    dsimp only
    split
    · split
      · rw [repairLoop_length len
          (writeRun (ch.getD (i - 1) 0) (ch.getD (runEnd ch len i) 0) i
            (runEnd ch len i - i + 1) ch)
          (runEnd ch len i + 1) (cnt + (runEnd ch len i - i + 1))]
        exact writeRun_length ..
      · exact repairLoop_length len ch (runEnd ch len i + 1) cnt
    · exact repairLoop_length len ch (i + 1) cnt
  · conv_lhs => rw [repairLoop.eq_def]
    rw [if_neg (by omega)]
termination_by len - i
decreasing_by
  all_goals first
  | (simp only [runEnd]; omega)
  | omega

theorem repairChannel_length (ch : List ℚ) : (repairChannel ch).1.length = ch.length := by
  unfold repairChannel
  split
  · rfl
  · exact repairLoop_length ch.length ch 1 0

theorem deEssChan_length (alpha ac rc : ℚ) (ch : List ℚ) :
    ∀ pIn pHp env cnt, (deEssChan alpha ac rc pIn pHp env cnt ch).1.length = ch.length := by
  induction ch with
  | nil => intro pIn pHp env cnt; rfl
  | cons x rest ih =>
    intro pIn pHp env cnt
    unfold deEssChan
    dsimp only
    split <;> split <;> simp [ih]

theorem gateChan_length (thr : ℚ) (atkS relS : ℕ) (ch : List ℚ) :
    ∀ env gate hold g, (gateChan thr atkS relS env gate hold g ch).1.length = ch.length := by
  induction ch with
  | nil => intro env gate hold g; rfl
  | cons x rest ih =>
    intro env gate hold g
    unfold gateChan
    dsimp only
    simp [ih]

/-- Every fix module keeps the sample rate and channel-count fields and the
equal-channel-length invariant. -/
theorem applyModule_shape (F : FloatOps) (b : AudioBuffer) (m : String)
    (h : uniformLength b) :
    uniformLength (applyModule F b m).1 ∧
      (applyModule F b m).1.sample_rate = b.sample_rate ∧
      (applyModule F b m).1.channels = b.channels := by
  unfold applyModule
  split
  · -- normalize
    unfold apply_normalize
    dsimp only
    split
    · exact ⟨h, rfl, rfl⟩
    · split
      · exact ⟨h, rfl, rfl⟩
      · exact ⟨uniformLength_map b _ id (fun ch => by simp) h, rfl, rfl⟩
  · split
    · -- clip_repair
      unfold apply_clip_repair
      dsimp only
      rw [List.map_map]
      refine ⟨?_, rfl, rfl⟩
      exact uniformLength_map b _ id (fun ch => repairChannel_length ch) h
    · split
      · -- de_ess
        unfold apply_de_ess
        dsimp only
        rw [List.map_map]
        refine ⟨?_, rfl, rfl⟩
        refine uniformLength_map b _ id (fun ch => ?_) h
        simp only [Function.comp_apply]
        split
        · rfl
        · exact deEssChan_length _ _ _ ch _ _ _ _
      · split
        · -- noise_reduction
          unfold apply_noise_reduction
          dsimp only
          rw [List.map_map]
          refine ⟨?_, rfl, rfl⟩
          exact uniformLength_map b _ id (fun ch => gateChan_length _ _ _ ch _ _ _ _) h
        · split
          · -- dc_offset
            unfold apply_dc_offset_removal
            dsimp only
            rw [List.map_map]
            refine ⟨?_, rfl, rfl⟩
            refine uniformLength_map b _ id (fun ch => ?_) h
            simp only [Function.comp_apply]
            split
            · rfl
            · split
              · simp
              · rfl
          · split
            · -- silence_trim
              unfold apply_silence_trim
              split
              · exact ⟨h, rfl, rfl⟩
              · split
                · refine ⟨?_, rfl, rfl⟩
                  exact uniformLength_map b _
                    (fun L => min (trimEnd b - trimStart b) (L - trimStart b))
                    (fun ch => by simp) h
                · exact ⟨h, rfl, rfl⟩
            · exact ⟨h, rfl, rfl⟩

/-- C10: `apply_fixes` preserves the equal-channel-length invariant and
never touches the `sample_rate` and `channels` fields, for every module
list (silence_trim cuts every channel to the same frame range; the other
modules keep the length of each channel). -/
theorem c10_apply_fixes_preserves_shape (F : FloatOps) (b : AudioBuffer) (ms : List String)
    (h : uniformLength b) :
    uniformLength (apply_fixes F b ms).1 ∧
      (apply_fixes F b ms).1.sample_rate = b.sample_rate ∧
      (apply_fixes F b ms).1.channels = b.channels := by
  induction ms generalizing b with
  | nil => exact ⟨h, rfl, rfl⟩
  | cons m rest ih =>
    obtain ⟨h1, h2, h3⟩ := applyModule_shape F b m h
    obtain ⟨g1, g2, g3⟩ := ih (applyModule F b m).1 h1
    exact ⟨g1, g2.trans h2, g3.trans h3⟩

/-- Witness for C10 on a concrete 2-channel buffer and a module list with an
unknown entry. -/
theorem c10_apply_fixes_preserves_shape_witness :
    uniformLength (apply_fixes zeroOps ⟨[[1 / 2, 0], [0, 1 / 4]], 44100, 2⟩
        ["dc_offset", "bogus", "silence_trim"]).1 ∧
      (apply_fixes zeroOps ⟨[[1 / 2, 0], [0, 1 / 4]], 44100, 2⟩
        ["dc_offset", "bogus", "silence_trim"]).1.sample_rate = 44100 ∧
      (apply_fixes zeroOps ⟨[[1 / 2, 0], [0, 1 / 4]], 44100, 2⟩
        ["dc_offset", "bogus", "silence_trim"]).1.channels = 2 :=
  c10_apply_fixes_preserves_shape zeroOps ⟨[[1 / 2, 0], [0, 1 / 4]], 44100, 2⟩
    ["dc_offset", "bogus", "silence_trim"] (by decide)

end Budi
